import Mathlib

/-!
Verification of the Tuxedo template wallet's request boundary and core
contracts, shallowly embedded from `src/wallet/src/cli.rs` and, where the
core component is only specified (the provided source is the CLI layer),
modelled from the specification.
-/

namespace TuxedoWallet

/-- Unsigned 128-bit integers, the monetary quantity type (`u128` in the source). -/
abbrev U128 := {n : Nat // n < 2 ^ 128}

/-- Unsigned 32-bit integers (`u32` in the source). -/
abbrev U32 := {n : Nat // n < 2 ^ 32}

/-- A 256-bit hash / public-key identifier (`sp_core::H256` in the source). -/
abbrev H256 := {n : Nat // n < 2 ^ 256}

/-- Modelled from the spec: an `OutputReference` is an opaque identifier of a
ledger output, transaction hash plus index (`tuxedo_core::types::OutputRef`,
whose definition is outside the provided source). -/
structure OutputRef where
  tx_hash : H256
  index : U32
deriving DecidableEq

/-- Modelled from the spec: the well-known development public key
(`SHAWN_PUB_KEY`, defined in the wallet's keystore module, which is not part of
the provided source). Only its role as the common default owner matters here. -/
def SHAWN_PUB_KEY : H256 :=
  ⟨0xd2bf4b844dfefd6772a8843e669f943408966a977e3ae2af1dd78e0f55f4df67, by decide⟩

/-- The default number of coins to be minted (`DEFAULT_MINT_VALUE` in cli.rs,
a string that clap parses with `u128`'s parser when `--amount` is omitted). -/
def DEFAULT_MINT_VALUE : String := "100"

/-- The default name of the kitty to be minted (`DEFAULT_KITTY_NAME` in cli.rs). -/
def DEFAULT_KITTY_NAME : String := "kity"

/-- The default gender of the kitty to be minted (`DEFAULT_KITTY_GENDER` in cli.rs). -/
def DEFAULT_KITTY_GENDER : String := "female"

/-- Decimal digit value of a character, `none` for a non-digit. -/
def decDigit (c : Char) : Option Nat :=
  if c.isDigit then some (c.toNat - 48) else none

/-- Fold a list of decimal digit characters into a number, `none` on a non-digit. -/
def parseDecCore : List Char → Nat → Option Nat
  | [], acc => some acc
  | c :: cs, acc =>
    match decDigit c with
    | some d => parseDecCore cs (acc * 10 + d)
    | none => none

/-- Parse a decimal numeral, as `u128`'s `FromStr` does on clap default values. -/
def parseDec (s : String) : Option Nat :=
  if s.isEmpty then none else parseDecCore s.data 0

/-- Parse a decimal numeral into a `u128`, rejecting out-of-range values. -/
def parseU128 (s : String) : Option U128 :=
  match parseDec s with
  | some n => if h : n < 2 ^ 128 then some ⟨n, h⟩ else none
  | none => none

/-- Arguments of the `mint-coins` command (`MintCoinArgs` in cli.rs). -/
structure MintCoinArgs where
  amount : U128
  owner : H256
deriving DecidableEq

/-- Arguments of the `spend-coins` command (`SpendArgs` in cli.rs): a possibly
empty list of coin inputs, one recipient, and a possibly empty list of output
amounts. -/
structure SpendArgs where
  input : List OutputRef
  recipient : H256
  output_amount : List U128
deriving DecidableEq

/-- Arguments of the `mint-kitty` command (`MintKittyArgs` in cli.rs). The
gender travels as a plain string at this boundary. -/
structure MintKittyArgs where
  kitty_gender : String
  kitty_name : String
  owner : H256
deriving DecidableEq

/-- Arguments of the `show-owned-kitties` command (`ShowOwnedKittyArgs` in cli.rs). -/
structure ShowOwnedKittyArgs where
  owner : H256
deriving DecidableEq

/-- Arguments of the `breed-kitty` commands (`BreedKittyArgs` in cli.rs). -/
structure BreedKittyArgs where
  mom_name : String
  dad_name : String
  owner : H256
deriving DecidableEq

/-- Arguments of the `set-kitty-property` command (`KittyPropertyArgs` in cli.rs). -/
structure KittyPropertyArgs where
  new_name : String
  price : U128
  is_available_for_sale : Bool
  owner : H256
  current_name : String
deriving DecidableEq

/-- Arguments of the `buy-kitty` command (`BuyKittyArgs` in cli.rs). -/
structure BuyKittyArgs where
  input : List OutputRef
  seller : H256
  owner : H256
  kitty_name : String
  output_amount : List U128
deriving DecidableEq

/-- Arguments of the `mint-tradable-kitty` command (`MintTradableKittyArgs` in cli.rs). -/
structure MintTradableKittyArgs where
  kitty_gender : String
  kitty_name : String
  price : U128
  is_available_for_sale : Bool
  owner : H256
deriving DecidableEq

/-- The tasks supported by the wallet (the `Command` enum in cli.rs), one
constructor per subcommand, carrying the same payloads. -/
inductive Command where
  | getBlock (block_height : Option U32)
  | MintCoins (args : MintCoinArgs)
  | VerifyKitty (output_ref : OutputRef)
  | VerifyTradableKitty (output_ref : OutputRef)
  | VerifyCoin (output_ref : OutputRef)
  | SpendCoins (args : SpendArgs)
  | InsertKey (seed : String)
  | GenerateKey (password : Option String)
  | ShowKeys
  | RemoveKey (pub_key : H256)
  | ShowBalance
  | ShowAllOutputs
  | ShowTimestamp
  | MintKitty (args : MintKittyArgs)
  | MintTradableKitty (args : MintTradableKittyArgs)
  | ShowAllKitties
  | ShowOwnedKitties (args : ShowOwnedKittyArgs)
  | BreedKitty (args : BreedKittyArgs)
  | BreedTradableKitty (args : BreedKittyArgs)
  | SetKittyProperty (args : KittyPropertyArgs)
  | BuyKitty (args : BuyKittyArgs)
deriving DecidableEq

/-- The kebab-case family name of each wallet command, as the CLI exposes it. -/
def commandFamily : Command → String
  | Command.getBlock _ => "get-block"
  | Command.MintCoins _ => "mint-coin"
  | Command.VerifyKitty _ => "verify-kitty"
  | Command.VerifyTradableKitty _ => "verify-tradable-kitty"
  | Command.VerifyCoin _ => "verify-coin"
  | Command.SpendCoins _ => "spend-coin"
  | Command.InsertKey _ => "insert-key"
  | Command.GenerateKey _ => "generate-key"
  | Command.ShowKeys => "show-keys"
  | Command.RemoveKey _ => "remove-key"
  | Command.ShowBalance => "show-balance"
  | Command.ShowAllOutputs => "show-all-outputs"
  | Command.ShowTimestamp => "show-timestamp"
  | Command.MintKitty _ => "mint-kitty"
  | Command.MintTradableKitty _ => "mint-tradable-kitty"
  | Command.ShowAllKitties => "show-all-kitties"
  | Command.ShowOwnedKitties _ => "show-owned-kitties"
  | Command.BreedKitty _ => "breed-kitty"
  | Command.BreedTradableKitty _ => "breed-tradable-kitty"
  | Command.SetKittyProperty _ => "set-kitty-property"
  | Command.BuyKitty _ => "buy-kitty"

/-- The command families enumerated by the specification's list of
core-exposed operations (one entry per claimed command). -/
def claimedFamilies : List String :=
  ["mint-coin", "spend-coin", "mint-kitty", "mint-tradable-kitty",
   "breed-kitty", "breed-tradable-kitty", "set-kitty-property", "buy-kitty",
   "verify-coin", "verify-kitty", "verify-tradable-kitty",
   "show-balance", "show-all-outputs", "show-all-kitties", "show-owned-kitties",
   "insert-key", "generate-key", "remove-key", "show-keys"]

/-- The command families the CLI actually exposes: the claimed ones plus
`get-block` and `show-timestamp`. -/
def actualFamilies : List String :=
  claimedFamilies ++ ["get-block", "show-timestamp"]

/-- A placeholder 256-bit key used to build sample commands. -/
def dummyH256 : H256 := ⟨0, by decide⟩

/-- A placeholder output reference used to build sample commands. -/
def dummyRef : OutputRef := { tx_hash := dummyH256, index := ⟨0, by decide⟩ }

/-- A placeholder `u128` used to build sample commands. -/
def dummyU128 : U128 := ⟨0, by decide⟩

/-- One representative command per family, listed in the order of `actualFamilies`. -/
def sampleCommands : List Command :=
  [Command.MintCoins { amount := dummyU128, owner := dummyH256 },
   Command.SpendCoins { input := [], recipient := dummyH256, output_amount := [] },
   Command.MintKitty { kitty_gender := DEFAULT_KITTY_GENDER, kitty_name := DEFAULT_KITTY_NAME, owner := dummyH256 },
   Command.MintTradableKitty { kitty_gender := DEFAULT_KITTY_GENDER, kitty_name := DEFAULT_KITTY_NAME, price := dummyU128, is_available_for_sale := false, owner := dummyH256 },
   Command.BreedKitty { mom_name := "m", dad_name := "d", owner := dummyH256 },
   Command.BreedTradableKitty { mom_name := "m", dad_name := "d", owner := dummyH256 },
   Command.SetKittyProperty { new_name := "n", price := dummyU128, is_available_for_sale := false, owner := dummyH256, current_name := "c" },
   Command.BuyKitty { input := [], seller := dummyH256, owner := dummyH256, kitty_name := "k", output_amount := [] },
   Command.VerifyCoin dummyRef,
   Command.VerifyKitty dummyRef,
   Command.VerifyTradableKitty dummyRef,
   Command.ShowBalance,
   Command.ShowAllOutputs,
   Command.ShowAllKitties,
   Command.ShowOwnedKitties { owner := dummyH256 },
   Command.InsertKey "seed",
   Command.GenerateKey none,
   Command.RemoveKey dummyH256,
   Command.ShowKeys,
   Command.getBlock none,
   Command.ShowTimestamp]

/-- CLI-layer assembly of `MintCoinArgs`: when the user omits `--amount`, clap
parses `DEFAULT_MINT_VALUE` with `u128`'s parser; when `--owner` is omitted,
`SHAWN_PUB_KEY` is used. Parsing a supplied value happened upstream, so the
optional arguments are already typed. -/
def mkMintCoinArgs (amount : Option U128) (owner : Option H256) : Option MintCoinArgs :=
  match amount.orElse (fun _ => parseU128 DEFAULT_MINT_VALUE) with
  | some a => some { amount := a, owner := owner.getD SHAWN_PUB_KEY }
  | none => none

/-- CLI-layer assembly of `SpendArgs`: flags that are not supplied leave the
`input` and `output-amount` lists empty, and the recipient defaults to
`SHAWN_PUB_KEY`. -/
def mkSpendArgs (inputs : List OutputRef) (recipient : Option H256)
    (amounts : List U128) : SpendArgs :=
  { input := inputs, recipient := recipient.getD SHAWN_PUB_KEY, output_amount := amounts }

/-- CLI-layer assembly of `MintKittyArgs` with cli.rs's default gender, name
and owner. -/
def mkMintKittyArgs (gender : Option String) (name : Option String)
    (owner : Option H256) : MintKittyArgs :=
  { kitty_gender := gender.getD DEFAULT_KITTY_GENDER,
    kitty_name := name.getD DEFAULT_KITTY_NAME,
    owner := owner.getD SHAWN_PUB_KEY }

/-- CLI-layer assembly of `BuyKittyArgs`: both the seller and the owner fields
default to `SHAWN_PUB_KEY` when omitted. -/
def mkBuyKittyArgs (inputs : List OutputRef) (seller : Option H256)
    (owner : Option H256) (name : String) (amounts : List U128) : BuyKittyArgs :=
  { input := inputs, seller := seller.getD SHAWN_PUB_KEY,
    owner := owner.getD SHAWN_PUB_KEY, kitty_name := name, output_amount := amounts }

/-- Modelled from the spec: a kitty's gender is one of exactly two values
(the `Gender` enum lives in the runtime's kitties pallet, outside the provided
source). -/
inductive Gender where
  | male
  | female
deriving DecidableEq

/-- Interpretation of a CLI gender string into the two-valued domain type. -/
def genderOfString (s : String) : Option Gender :=
  if s = "male" then some Gender.male
  else if s = "female" then some Gender.female
  else none

/-- Modelled from the spec: a `Kitty` record — name, two-valued gender, and a
genetic code (the concrete type lives in the runtime, outside the provided
source). -/
structure Kitty where
  name : String
  gender : Gender
  dna : Nat
deriving DecidableEq

/-- Modelled from the spec: a `TradableKitty` is a `Kitty` plus marketplace
fields. -/
structure TradableKitty where
  base : Kitty
  price : U128
  is_available_for_sale : Bool
deriving DecidableEq

/-- Modelled from the spec: the payload of a ledger output — a coin, a kitty,
or a tradable kitty. -/
inductive Payload where
  | coin (value : U128)
  | kitty (k : Kitty)
  | tradableKitty (tk : TradableKitty)
deriving DecidableEq

/-- Modelled from the spec: an unspent output as the Local Ledger Store keeps
it — its owner and its payload. -/
structure LedgerOutput where
  owner : H256
  payload : Payload
deriving DecidableEq

/-- Modelled from the spec: the Local Ledger Store, a mapping from output
reference to output record. -/
abbrev Store := List (OutputRef × LedgerOutput)

/-- Modelled from the spec: the wallet error taxonomy of §7. -/
inductive WalletError where
  | NotFound
  | InsufficientFunds
  | InvalidBreedingPair
  | NameCollision
  | KeyNotFound
  | LockedOrPasswordRequired
deriving DecidableEq

/-- Point read of the Local Ledger Store. -/
def lookupOutput : Store → OutputRef → Option LedgerOutput
  | [], _ => none
  | (r, o) :: rest, q => if r = q then some o else lookupOutput rest q

/-- The coin value of a payload, `none` for kitty payloads. -/
def coinValue : Payload → Option U128
  | Payload.coin v => some v
  | _ => none

/-- Modelled from the spec: an unsigned transaction as the Transaction Builder
assembles it — consumed references and created outputs. -/
structure UnsignedTransaction where
  inputs : List OutputRef
  outputs : List LedgerOutput
deriving DecidableEq

/-- Modelled from the spec: a signature produced by the Keystore over the
canonical transaction encoding, recorded here as the signer and the signed
transaction. -/
structure Signature where
  signer : H256
  signed : UnsignedTransaction
deriving DecidableEq

/-- Modelled from the spec: a signed transaction, ready for submission. -/
structure SignedTransaction where
  tx : UnsignedTransaction
  signatures : List Signature
deriving DecidableEq

/-- Modelled from the spec: the Keystore's `sign` contract — fails with
`KeyNotFound` when the key is absent from the keystore. -/
def keystoreSign (keys : List H256) (pk : H256) (tx : UnsignedTransaction) :
    Except WalletError Signature :=
  if pk ∈ keys then Except.ok { signer := pk, signed := tx }
  else Except.error WalletError.KeyNotFound

/-- Sign a transaction once per input owner, propagating the first failure. -/
def signAll (keys : List H256) (tx : UnsignedTransaction) :
    List H256 → Except WalletError (List Signature)
  | [] => Except.ok []
  | pk :: rest =>
    match keystoreSign keys pk tx, signAll keys tx rest with
    | Except.ok s, Except.ok ss => Except.ok (s :: ss)
    | Except.error e, _ => Except.error e
    | _, Except.error e => Except.error e

/-- Resolve each requested input against the store, requiring every one to be
a present coin output; `none` when any is missing or not a coin. -/
def resolveCoinInputs (store : Store) : List OutputRef → Option (List LedgerOutput)
  | [] => some []
  | r :: rs =>
    match lookupOutput store r with
    | some o =>
      match coinValue o.payload, resolveCoinInputs store rs with
      | some _, some os => some (o :: os)
      | _, _ => none
    | none => none

/-- Every requested input resolves to a coin output whose owner's key is held
by the keystore; decidable so that concrete requests can be checked by
evaluation. -/
def inputsSignable (keys : List H256) (store : Store) : List OutputRef → Bool
  | [] => true
  | r :: rs =>
    match lookupOutput store r with
    | some o =>
      (coinValue o.payload).isSome && decide (o.owner ∈ keys) && inputsSignable keys store rs
    | none => false

/-- Total coin value of the requested inputs as found in the store (missing or
non-coin entries count zero). -/
def inputTotal (store : Store) (refs : List OutputRef) : Nat :=
  (refs.map (fun r =>
    match lookupOutput store r with
    | some o =>
      match coinValue o.payload with
      | some v => v.val
      | none => 0
    | none => 0)).sum

/-- Total of the requested output amounts. -/
def outputTotal (amounts : List U128) : Nat :=
  (amounts.map (fun v => v.val)).sum

/-- Modelled from the spec: the Transaction Builder's spend path (§4.4; the
builder itself lives in the wallet's money module, outside the provided
source). It resolves the inputs, emits one coin output per requested amount —
all to the single recipient, as cli.rs documents — signs with the input
owners' keys, and performs NO conservation check: outputs exceeding inputs
pass through, per the stated "wallet will gladly send an invalid
transaction" policy. -/
def buildSpend (keys : List H256) (store : Store) (args : SpendArgs) :
    Except WalletError SignedTransaction :=
  match resolveCoinInputs store args.input with
  | none => Except.error WalletError.NotFound
  | some resolved =>
    let tx : UnsignedTransaction :=
      { inputs := args.input,
        outputs := args.output_amount.map (fun v =>
          { owner := args.recipient, payload := Payload.coin v }) }
    match signAll keys tx (resolved.map (fun o => o.owner)) with
    | Except.ok sigs => Except.ok { tx := tx, signatures := sigs }
    | Except.error e => Except.error e

/-- Look up a live kitty by its owner and name in the Local Ledger Store
(first match). A kitty owned by a different key, or absent from the store,
is not found. -/
def lookupKittyByName : Store → H256 → String → Option (OutputRef × Kitty)
  | [], _, _ => none
  | (r, o) :: rest, owner, name =>
    match o.payload with
    | Payload.kitty k =>
      if o.owner = owner ∧ k.name = name then some (r, k)
      else lookupKittyByName rest owner name
    | _ => lookupKittyByName rest owner name

/-- Modelled from the spec: the fixed combination rule deriving an offspring's
genetic code from the parents' codes. The spec leaves the exact rule open (a
flagged integration point), so a representative deterministic rule is used;
no claim depends on its particulars. -/
def combineDna (m d : Nat) : Nat := (m + d) % 2 ^ 256

/-- Modelled from the spec: the Kitty Genetics Module's breed operation
(§4.3; the module lives outside the provided source). Both parents must be
live in the Local Ledger Store, owned by the requesting key, with
`mom.gender = Female` and `dad.gender = Male`; any violation yields
`InvalidBreedingPair`. On success it returns mom, dad and the derived
offspring. -/
def breedKitty (store : Store) (args : BreedKittyArgs) :
    Except WalletError (Kitty × Kitty × Kitty) :=
  match lookupKittyByName store args.owner args.mom_name,
        lookupKittyByName store args.owner args.dad_name with
  | some (_, mom), some (_, dad) =>
    if mom.gender = Gender.female ∧ dad.gender = Gender.male then
      Except.ok (mom, dad,
        { name := args.mom_name ++ args.dad_name,
          gender := if combineDna mom.dna dad.dna % 2 = 0 then Gender.male else Gender.female,
          dna := combineDna mom.dna dad.dna })
    else Except.error WalletError.InvalidBreedingPair
  | _, _ => Except.error WalletError.InvalidBreedingPair

/-- Modelled from the spec: one block's worth of ledger deltas — outputs
created and outputs consumed. -/
structure Block where
  created : List (OutputRef × LedgerOutput)
  consumed : List OutputRef

/-- Modelled from the spec: the remote chain state as a sequence of blocks. -/
abbrev Chain := List Block

/-- Modelled from the spec: the wallet's synced view — the Local Ledger Store
plus the sync watermark (§3, §4.1). -/
structure WalletState where
  store : Store
  watermark : Nat

/-- Modelled from the spec: applying one block's deltas to the Local Ledger
Store — remove consumed outputs, insert new outputs owned by tracked keys. -/
def applyBlock (tracked : List H256) (store : Store) (b : Block) : Store :=
  store.filter (fun p => decide (p.1 ∉ b.consumed))
    ++ b.created.filter (fun p => decide (p.2.owner ∈ tracked))

/-- Modelled from the spec: the Sync Engine's `sync` (§4.1; the engine lives
outside the provided source). It applies the deltas of every block past the
current watermark as one batch and advances the watermark to the chain tip. -/
def sync (tracked : List H256) (chain : Chain) (st : WalletState) : WalletState :=
  { store := (chain.drop st.watermark).foldl (applyBlock tracked) st.store,
    watermark := chain.length }

/-- Every signable input list resolves to coin outputs whose owners all hold
keys in the keystore. -/
theorem inputsSignable_resolves (keys : List H256) (store : Store)
    (rs : List OutputRef) (h : inputsSignable keys store rs = true) :
    ∃ os, resolveCoinInputs store rs = some os ∧ ∀ o ∈ os, o.owner ∈ keys := by
  induction rs with
  | nil => exact ⟨[], rfl, by simp⟩
  | cons r rs ih =>
    cases hl : lookupOutput store r with
    | none =>
      simp only [inputsSignable, hl] at h
      exact Bool.noConfusion h
    | some o =>
      simp only [inputsSignable, hl, Bool.and_eq_true, decide_eq_true_eq] at h
      obtain ⟨⟨hv, hk⟩, hrest⟩ := h
      obtain ⟨os, hos, hall⟩ := ih hrest
      obtain ⟨v, hv'⟩ := Option.isSome_iff_exists.mp hv
      refine ⟨o :: os, ?_, ?_⟩
      · simp only [resolveCoinInputs, hl, hv', hos]
      · intro x hx
        rcases List.mem_cons.mp hx with h1 | h2
        · exact h1 ▸ hk
        · exact hall x h2

/-- Signing succeeds for every owner list whose keys are all present. -/
theorem signAll_ok (keys : List H256) (tx : UnsignedTransaction)
    (owners : List H256) (h : ∀ pk ∈ owners, pk ∈ keys) :
    ∃ sigs, signAll keys tx owners = Except.ok sigs := by
  induction owners with
  | nil => exact ⟨[], rfl⟩
  | cons pk rest ih =>
    obtain ⟨sigs, hs⟩ := ih (fun q hq => h q (List.mem_cons_of_mem _ hq))
    refine ⟨{ signer := pk, signed := tx } :: sigs, ?_⟩
    simp only [signAll, keystoreSign, if_pos (h pk (List.mem_cons_self _ _)), hs]

/-- C1: a spend-coin request whose output amounts sum to strictly more than
the total value of its inputs still builds successfully: the Transaction
Builder performs no conservation check, and as long as the inputs resolve and
their owners' keys are held, a signed transaction is returned rather than an
error. -/
theorem buildSpend_conservation_agnostic (keys : List H256) (store : Store)
    (args : SpendArgs) (hsign : inputsSignable keys store args.input = true)
    (hexceed : outputTotal args.output_amount > inputTotal store args.input) :
    ∃ stx, buildSpend keys store args = Except.ok stx := by
  obtain ⟨os, hos, hall⟩ := inputsSignable_resolves keys store args.input hsign
  have hmem : ∀ pk ∈ os.map (fun o => o.owner), pk ∈ keys := by
    intro pk hpk
    obtain ⟨o, ho, rfl⟩ := List.mem_map.mp hpk
    exact hall o ho
  obtain ⟨sigs, hsigs⟩ := signAll_ok keys
    { inputs := args.input,
      outputs := args.output_amount.map (fun v =>
        { owner := args.recipient, payload := Payload.coin v }) }
    (os.map (fun o => o.owner)) hmem
  refine ⟨{ tx := { inputs := args.input,
                    outputs := args.output_amount.map (fun v =>
                      { owner := args.recipient, payload := Payload.coin v }) },
            signatures := sigs }, ?_⟩
  simp only [buildSpend, hos, hsigs]

/-- A coin output of value 100 owned by the development key. -/
def wCoinRef : OutputRef := { tx_hash := ⟨0, by decide⟩, index := ⟨0, by decide⟩ }

/-- A store holding exactly that one coin of value 100. -/
def wCoinStore : Store :=
  [(wCoinRef, { owner := SHAWN_PUB_KEY, payload := Payload.coin ⟨100, by decide⟩ })]

/-- A spend request consuming the 100-coin and asking for a single 150 output. -/
def wSpendReq : SpendArgs :=
  { input := [wCoinRef], recipient := SHAWN_PUB_KEY, output_amount := [⟨150, by decide⟩] }

/-- Witness for C1: one input of value 100, requested outputs `[150]`, and the
builder returns a signed transaction. -/
theorem buildSpend_conservation_agnostic_witness :
    ∃ stx, buildSpend [SHAWN_PUB_KEY] wCoinStore wSpendReq = Except.ok stx :=
  buildSpend_conservation_agnostic [SHAWN_PUB_KEY] wCoinStore wSpendReq
    (by decide) (by decide)

/-- C2: whenever the breeding precondition fails — the mom kitty is absent
from the store under the requesting owner (not live or not owned), likewise
the dad, or a present mom is not Female, or a present dad is not Male — the
breed operation fails with `InvalidBreedingPair`. -/
theorem breedKitty_invalid_pair (store : Store) (args : BreedKittyArgs)
    (h : lookupKittyByName store args.owner args.mom_name = none
      ∨ lookupKittyByName store args.owner args.dad_name = none
      ∨ (∃ p, lookupKittyByName store args.owner args.mom_name = some p
              ∧ p.2.gender ≠ Gender.female)
      ∨ (∃ p, lookupKittyByName store args.owner args.dad_name = some p
              ∧ p.2.gender ≠ Gender.male)) :
    breedKitty store args = Except.error WalletError.InvalidBreedingPair := by
  cases hm : lookupKittyByName store args.owner args.mom_name with
  | none =>
    cases hd : lookupKittyByName store args.owner args.dad_name with
    | none => simp only [breedKitty, hm, hd]
    | some pd =>
      obtain ⟨rd, dad⟩ := pd
      simp only [breedKitty, hm, hd]
  | some pm =>
    obtain ⟨rm, mom⟩ := pm
    cases hd : lookupKittyByName store args.owner args.dad_name with
    | none => simp only [breedKitty, hm, hd]
    | some pd =>
      obtain ⟨rd, dad⟩ := pd
      have hne : ¬(mom.gender = Gender.female ∧ dad.gender = Gender.male) := by
        rcases h with h | h | ⟨p, hp, hg⟩ | ⟨p, hp, hg⟩
        · rw [hm] at h; exact Option.noConfusion h
        · rw [hd] at h; exact Option.noConfusion h
        · rw [hm] at hp; injection hp with hp
          exact fun hc => hg (hp ▸ hc.1)
        · rw [hd] at hp; injection hp with hp
          exact fun hc => hg (hp ▸ hc.2)
      simp only [breedKitty, hm, hd, if_neg hne]

/-- A female kitty playing the mom role. -/
def wMomKitty : Kitty := { name := "momkit", gender := Gender.female, dna := 1 }

/-- A female kitty mistakenly supplied as the dad. -/
def wDadKitty : Kitty := { name := "dadkit", gender := Gender.female, dna := 2 }

/-- Output reference of the mom kitty. -/
def wKittyRef1 : OutputRef := { tx_hash := ⟨1, by decide⟩, index := ⟨0, by decide⟩ }

/-- Output reference of the dad-role kitty. -/
def wKittyRef2 : OutputRef := { tx_hash := ⟨2, by decide⟩, index := ⟨0, by decide⟩ }

/-- A store with both kitties live and owned by the development key. -/
def wKittyStore : Store :=
  [(wKittyRef1, { owner := SHAWN_PUB_KEY, payload := Payload.kitty wMomKitty }),
   (wKittyRef2, { owner := SHAWN_PUB_KEY, payload := Payload.kitty wDadKitty })]

/-- The breed request pairing the two female kitties. -/
def wBreedReq : BreedKittyArgs :=
  { mom_name := "momkit", dad_name := "dadkit", owner := SHAWN_PUB_KEY }

/-- Witness for C2: breeding two kitties that are both female fails with
`InvalidBreedingPair`. -/
theorem breedKitty_invalid_pair_witness :
    breedKitty wKittyStore wBreedReq = Except.error WalletError.InvalidBreedingPair :=
  breedKitty_invalid_pair wKittyStore wBreedReq
    (Or.inr (Or.inr (Or.inr ⟨(wKittyRef2, wDadKitty), by decide, by decide⟩)))

/-- C3 counterexample: the command surface is not limited to the families the
specification lists — the `get-block` subcommand exists and is outside that
list. -/
theorem command_surface_counterexample :
    ¬∀ c : Command, commandFamily c ∈ claimedFamilies :=
  fun h => absurd (h (Command.getBlock none)) (by decide)

/-- C3 (amended): the wallet command boundary exposes exactly one command per
family in the specification's list plus `get-block` and `show-timestamp`:
every command's family is in that extended list, and each entry of the list is
realized by a command. -/
theorem command_surface_amended :
    (∀ c : Command, commandFamily c ∈ actualFamilies)
    ∧ sampleCommands.map commandFamily = actualFamilies := by
  constructor
  · intro c; cases c <;> simp only [commandFamily] <;> decide
  · decide

/-- C4: a mint-coin request that omits both arguments is completed by the CLI
layer with amount 100 and the well-known development public key as owner. -/
theorem mint_coin_defaults :
    ∃ a : MintCoinArgs, mkMintCoinArgs none none = some a
      ∧ a.amount.val = 100 ∧ a.owner = SHAWN_PUB_KEY :=
  ⟨{ amount := ⟨100, by decide⟩, owner := SHAWN_PUB_KEY }, by decide, rfl, rfl⟩

/-- C5 counterexample: a mint-kitty request whose gender string is neither
male nor female is a representable value of the boundary type, so mint
requests do not carry a gender drawn from the two-valued set. -/
theorem mint_gender_counterexample :
    ¬∀ a : MintKittyArgs, (genderOfString a.kitty_gender).isSome = true :=
  fun h =>
    absurd
      (h { kitty_gender := "banana", kitty_name := DEFAULT_KITTY_NAME,
           owner := SHAWN_PUB_KEY })
      (by decide)

/-- C5 (amended): the domain `Gender` type has exactly the two values Male and
Female, and the CLI default gender string denotes Female; but the mint-kitty
and mint-tradable-kitty request types carry gender as an unrestricted string,
so requests with a gender outside the two-valued set are representable. -/
theorem kitty_gender_two_valued :
    (∀ g : Gender, g = Gender.male ∨ g = Gender.female)
    ∧ genderOfString DEFAULT_KITTY_GENDER = some Gender.female
    ∧ (mkMintKittyArgs none none none).kitty_gender = DEFAULT_KITTY_GENDER
    ∧ (∃ a : MintKittyArgs, genderOfString a.kitty_gender = none)
    ∧ (∃ a : MintTradableKittyArgs, genderOfString a.kitty_gender = none) :=
  ⟨fun g => match g with
    | Gender.male => Or.inl rfl
    | Gender.female => Or.inr rfl,
   by decide, rfl,
   ⟨{ kitty_gender := "banana", kitty_name := DEFAULT_KITTY_NAME,
      owner := SHAWN_PUB_KEY }, by decide⟩,
   ⟨{ kitty_gender := "banana", kitty_name := DEFAULT_KITTY_NAME,
      price := dummyU128, is_available_for_sale := false,
      owner := SHAWN_PUB_KEY }, by decide⟩⟩

/-- C6: every monetary quantity at the request boundary — the mint amount,
each spend or buy output amount, and the tradable-kitty prices — is a `u128`
value, a natural number strictly below `2 ^ 128`. -/
theorem monetary_quantities_u128 :
    ∀ (m : MintCoinArgs) (s : SpendArgs) (b : BuyKittyArgs)
      (p : KittyPropertyArgs) (t : MintTradableKittyArgs)
      (i : Fin s.output_amount.length) (j : Fin b.output_amount.length),
      m.amount.val < 2 ^ 128 ∧ (s.output_amount.get i).val < 2 ^ 128
      ∧ (b.output_amount.get j).val < 2 ^ 128
      ∧ p.price.val < 2 ^ 128 ∧ t.price.val < 2 ^ 128 :=
  fun m s b p t i j =>
    ⟨m.amount.2, (s.output_amount.get i).2, (b.output_amount.get j).2,
     p.price.2, t.price.2⟩

/-- The request payload shapes of the four key-management commands: a seed
string for insert, an optional password for generate, a public key for remove,
and nothing for list. -/
abbrev KeyRequestShape := Sum String (Sum (Option String) (Sum H256 Unit))

/-- Builds the key-management command with the given payload shape. -/
def keyCommandOfShape : KeyRequestShape → Command
  | Sum.inl seed => Command.InsertKey seed
  | Sum.inr (Sum.inl password) => Command.GenerateKey password
  | Sum.inr (Sum.inr (Sum.inl pk)) => Command.RemoveKey pk
  | Sum.inr (Sum.inr (Sum.inr _)) => Command.ShowKeys

/-- Extracts a key-management command's payload shape; `none` on every other
command. -/
def keyCommandShape : Command → Option KeyRequestShape
  | Command.InsertKey seed => some (Sum.inl seed)
  | Command.GenerateKey password => some (Sum.inr (Sum.inl password))
  | Command.RemoveKey pk => some (Sum.inr (Sum.inr (Sum.inl pk)))
  | Command.ShowKeys => some (Sum.inr (Sum.inr (Sum.inr ())))
  | _ => none

/-- C7: the key-management boundary has exactly the four claimed request
shapes — insert takes a seed string, generate an optional password, remove a
single public key, list nothing — and these shapes classify the key commands
faithfully in both directions. -/
theorem key_command_shapes :
    (∀ s : KeyRequestShape, keyCommandShape (keyCommandOfShape s) = some s)
    ∧ ∀ (c : Command) (s : KeyRequestShape),
        keyCommandShape c = some s → keyCommandOfShape s = c := by
  constructor
  · intro s
    rcases s with s | s | s | s <;> rfl
  · intro c s h
    cases c <;> first
      | exact Option.noConfusion h
      | (injection h with h; subst h; rfl)

/-- Witness for C7: the insert-key command with a concrete seed round-trips
through its shape. -/
theorem key_command_shapes_witness :
    keyCommandShape (keyCommandOfShape (Sum.inl ("abc"))) = some (Sum.inl ("abc"))
    ∧ keyCommandOfShape (Sum.inl ("abc")) = Command.InsertKey ("abc") :=
  ⟨key_command_shapes.1 (Sum.inl ("abc")),
   key_command_shapes.2 (Command.InsertKey ("abc")) (Sum.inl ("abc")) rfl⟩

/-- C8: sync is idempotent — re-running sync from the watermark left by a
first sync, against unchanged chain state, leaves both the Local Ledger Store
and the watermark exactly as the first run left them. -/
theorem sync_idempotent (tracked : List H256) (chain : Chain) (st : WalletState) :
    sync tracked chain (sync tracked chain st) = sync tracked chain st := by
  simp [sync, List.drop_length]

/-- C9: the spend request type imposes no minimum arity — omitting the input
and output-amount flags yields empty lists, and a spend request with both
lists empty is a representable value. -/
theorem spend_args_no_minimum_arity :
    (mkSpendArgs [] none []).input = []
    ∧ (mkSpendArgs [] none []).output_amount = []
    ∧ ∃ a : SpendArgs, a.input = [] ∧ a.output_amount = [] :=
  ⟨rfl, rfl, ⟨mkSpendArgs [] none [], rfl, rfl⟩⟩

/-- C10: a buy-kitty request that omits both the owner and the seller gets the
well-known development public key for each, so buyer equals seller. -/
theorem buy_kitty_default_owner_eq_seller :
    ∀ (inputs : List OutputRef) (name : String) (amounts : List U128),
      (mkBuyKittyArgs inputs none none name amounts).owner
        = (mkBuyKittyArgs inputs none none name amounts).seller
      ∧ (mkBuyKittyArgs inputs none none name amounts).owner = SHAWN_PUB_KEY :=
  fun _ _ _ => ⟨rfl, rfl⟩

end TuxedoWallet
